import Mathlib

/-!
Shallow embedding of the FRA Atlas WebGIS backend (`src/backend/main.py`):
the risk-analytics aggregation `get_analytics` and the report endpoint
`generate_report`.  Python floats are modelled by exact rationals (`ℚ`),
Python `round` by round-half-to-even, Python dicts with string keys by
association lists preserving insertion order, and `list.sort(reverse=True)`
by the stable `List.insertionSort` with the reversed comparison (every
stable sort by the same key produces the same list).
-/

namespace FraAtlas

/-- A feature's `properties` mapping.  Each field is `Option`al because the
Python code reads it with `props.get(key, default)`; `none` models an absent
key. -/
structure ClaimProps where
  district : Option String
  status : Option String
  overlap : Option Bool
  protected_zone : Option Bool
deriving DecidableEq, Repr

/-- Per-district accumulator, as initialised at `main.py` lines 81–86. -/
structure DStats where
  total : Nat
  pending : Nat
  conflicts : Nat
  approved : Nat
deriving DecidableEq, Repr

/-- The fresh all-zero aggregate a district gets on first sight
(lines 81-86). -/
def initDistrict : DStats := ⟨0, 0, 0, 0⟩

/-- The mutable state threaded through the `for feature in features` loop:
the three global status counters plus the `districts_data` dict (an
association list in insertion order; `total_claims` is just
`features.length` and needs no accumulator). -/
structure TallyState where
  approved_claims : Nat
  pending_claims : Nat
  conflict_claims : Nat
  districts_data : List (String × DStats)
deriving DecidableEq, Repr

/-- Dict lookup on the association list (first occurrence of the key). -/
def lookupEntry : List (String × DStats) → String → Option DStats
  | [], _ => none
  | (k, v) :: rest, d => if k = d then some v else lookupEntry rest d

/-- Update the value stored at the first occurrence of key `d` (Python's
`districts_data[district]["..."] += 1` on a dict whose keys are unique). -/
def updateEntry : List (String × DStats) → String → (DStats → DStats) → List (String × DStats)
  | [], _, _ => []
  | (k, v) :: rest, d, f =>
      if k = d then (k, f v) :: rest else (k, v) :: updateEntry rest d f

/-- One iteration of the loop at `main.py` lines 63–97. -/
def processFeature (st : TallyState) (props : ClaimProps) : TallyState :=
  let district := props.district.getD "Unknown"
  let status := props.status.getD "Unknown"
  let overlap := props.overlap.getD false
  let protectedZone := props.protected_zone.getD false
  -- Global counts (lines 71–77): an `elif` chain.
  let st :=
    if status = "Approved" then
      { st with approved_claims := st.approved_claims + 1 }
    else if status = "Pending" then
      { st with pending_claims := st.pending_claims + 1 }
    else if status = "Conflict" ∨ overlap = true ∨ protectedZone = true then
      { st with conflict_claims := st.conflict_claims + 1 }
    else st
  -- Initialize district if needed (lines 80–86): dicts append new keys.
  let dd :=
    if (lookupEntry st.districts_data district).isSome then st.districts_data
    else st.districts_data ++ [(district, initDistrict)]
  -- District counts (lines 89–97).
  let dd := updateEntry dd district fun s => { s with total := s.total + 1 }
  let dd :=
    if status = "Pending" then
      updateEntry dd district fun s => { s with pending := s.pending + 1 }
    else if status = "Approved" then
      updateEntry dd district fun s => { s with approved := s.approved + 1 }
    else dd
  let dd :=
    if overlap = true ∨ protectedZone = true ∨ status = "Conflict" then
      updateEntry dd district fun s => { s with conflicts := s.conflicts + 1 }
    else dd
  { st with districts_data := dd }

/-- Python's `round` ties to even.  `Int.fract q = 1/2` exactly at ties; on a
tie, `2 * round (q / 2)` is the nearest even integer. -/
def roundHalfEven (q : ℚ) : ℤ :=
  if Int.fract q = 1 / 2 then 2 * round (q / 2) else round q

/-- Python's round(x, 2). -/
def round2 (q : ℚ) : ℚ := (roundHalfEven (q * 100) : ℚ) / 100

/-- Python's round(x, 1). -/
def round1 (q : ℚ) : ℚ := (roundHalfEven (q * 10) : ℚ) / 10

/-- The unrounded risk score of a district (lines 106–111):
`(pending/total*100)*0.5 + (conflicts/total*100)*0.5`. -/
def riskScore (stats : DStats) : ℚ :=
  let pending_pct : ℚ := ((stats.pending : ℚ) / (stats.total : ℚ)) * 100
  let conflict_pct : ℚ := ((stats.conflicts : ℚ) / (stats.total : ℚ)) * 100
  pending_pct * (1 / 2) + conflict_pct * (1 / 2)

/-- Classification of an (unrounded) risk score (lines 114–119). -/
def riskLevel (risk_score : ℚ) : String :=
  if risk_score ≤ 40 then "Low"
  else if risk_score ≤ 70 then "Moderate"
  else "High"

/-- One entry of the `districts` output list (lines 121–128). -/
structure DistrictRanking where
  district : String
  total_claims : Nat
  pending : Nat
  conflicts : Nat
  risk_score : ℚ
  risk_level : String
deriving DecidableEq, Repr

/-- The dict appended at lines 121–128 for one district. -/
def mkRanking (name : String) (stats : DStats) : DistrictRanking :=
  { district := name
    total_claims := stats.total
    pending := stats.pending
    conflicts := stats.conflicts
    risk_score := round2 (riskScore stats)
    risk_level := riskLevel (riskScore stats) }

/-- The `summary` object (lines 134–141). -/
structure Summary where
  total_claims : Nat
  approved_claims : Nat
  pending_claims : Nat
  conflict_claims : Nat
  approved_pct : ℚ
  pending_pct : ℚ
deriving DecidableEq, Repr

/-- The full `/api/analytics` response body (lines 133–143). -/
structure Analytics where
  summary : Summary
  districts : List DistrictRanking
deriving DecidableEq, Repr

/-- Comparator for `district_rankings.sort(key=lambda x: x["risk_score"],
reverse=True)` (line 131): a stable descending sort keeps `a` before `b`
when `b`'s score is at most `a`'s.  Python's sort is stable, and every
stable sort by a total preorder yields the same list, so the stable
`List.insertionSort` reproduces it exactly. -/
def rankingLe (a b : DistrictRanking) : Prop :=
  b.risk_score ≤ a.risk_score

instance : DecidableRel rankingLe :=
  fun a b => inferInstanceAs (Decidable (b.risk_score ≤ a.risk_score))

instance : IsTotal DistrictRanking rankingLe :=
  ⟨fun a b => le_total b.risk_score a.risk_score⟩

instance : IsTrans DistrictRanking rankingLe :=
  ⟨fun _ _ _ hab hbc => le_trans hbc hab⟩

/-- The function `get_analytics` (lines 44–143) on an already-parsed
`features` list; the
file read and JSON parse are the external store, handled by the caller. -/
def get_analytics (features : List ClaimProps) : Analytics :=
  let st := features.foldl processFeature ⟨0, 0, 0, []⟩
  let total_claims := features.length
  let district_rankings :=
    List.insertionSort rankingLe
      ((st.districts_data.filter (fun p => p.2.total ≠ 0)).map
        (fun p => mkRanking p.1 p.2))
  { summary :=
      { total_claims := total_claims
        approved_claims := st.approved_claims
        pending_claims := st.pending_claims
        conflict_claims := st.conflict_claims
        approved_pct :=
          round1 (if total_claims ≠ 0 then
            (st.approved_claims : ℚ) / (total_claims : ℚ) * 100 else 0)
        pending_pct :=
          round1 (if total_claims ≠ 0 then
            (st.pending_claims : ℚ) / (total_claims : ℚ) * 100 else 0) }
    districts := district_rankings }

/-- Outcome of the `/api/report/{district}` endpoint (lines 148–197); each
constructor is one of the dictionaries the Python function can return. -/
inductive ReportResult where
  | configError : ReportResult
  | analyticsError (msg : String) : ReportResult
  | notFound (district : String) : ReportResult
  | generationError (msg : String) : ReportResult
  | report (district : String) (reportText : String) : ReportResult
deriving DecidableEq, Repr

/-- Line 153: `not os.getenv("GEMINI_API_KEY")` is true when the variable is
unset or the empty string; the second disjunct is the placeholder check. -/
def gemini_key_missing (key : Option String) : Bool :=
  match key with
  | none => true
  | some s => s = "" || s = "your_gemini_api_key_here"

/-- The f-string prompt built at lines 170–186 from one ranking entry. -/
def buildPrompt (d : DistrictRanking) : String :=
  "You are an expert governance compliance analyst under the Forest Rights Act (FRA). " ++
  "Generate a concise formal compliance summary using the following regional data: " ++
  "District: " ++ d.district ++
  " Total Claims: " ++ toString d.total_claims ++
  " Conflicts (Overlaps/Protected Zones): " ++ toString d.conflicts ++
  " Pending Claims: " ++ toString d.pending ++
  " Calculated Risk Level: " ++ d.risk_level ++ " (Score: " ++ toString d.risk_score ++ ") " ++
  "Please provide: 1. A brief summary of the exact statistics above. " ++
  "2. The severity of the conflict risk. " ++
  "3. Actionable policy recommendations for administrative review. " ++
  "Keep the output professional, objective, and no longer than 2-3 paragraphs."

/-- The function `generate_report` (lines 148–197).  The ambient pieces of state are
passed explicitly: `gemini_api_key` is `os.getenv("GEMINI_API_KEY")`,
`store` is the claim store behind `get_analytics` (whose file read or JSON
parse may raise, giving the `error` branch at lines 160–161), and
`generate_content` is the external Gemini call (line 190), which either
returns text or raises. -/
def generate_report (gemini_api_key : Option String)
    (store : Except String (List ClaimProps)) (district : String)
    (generate_content : String → Except String String) : ReportResult :=
  if gemini_key_missing gemini_api_key then
    ReportResult.configError
  else
    match store with
    | .error e => ReportResult.analyticsError e
    | .ok features =>
      let analytics := get_analytics features
      match analytics.districts.find? (fun d => d.district == district) with
      | none => ReportResult.notFound district
      | some target_data =>
        match generate_content (buildPrompt target_data) with
        | .ok text => ReportResult.report district text
        | .error e => ReportResult.generationError e

/-- The combined effect of one loop iteration on the aggregate of the
feature's district: `total` always increments; `pending`/`approved`
increment by status (mutually exclusive string tags); `conflicts`
increments on `overlap or protected or status == "Conflict"`. -/
def stepStats (old : DStats) (p : ClaimProps) : DStats :=
  { total := old.total + 1
    pending := old.pending + (if p.status.getD "Unknown" = "Pending" then 1 else 0)
    conflicts := old.conflicts +
      (if p.overlap.getD false = true ∨ p.protected_zone.getD false = true ∨
          p.status.getD "Unknown" = "Conflict" then 1 else 0)
    approved := old.approved + (if p.status.getD "Unknown" = "Approved" then 1 else 0) }

/-- Sum of the `total` counters over an association list of aggregates. -/
def sumTotals (l : List (String × DStats)) : Nat :=
  (l.map fun e => e.2.total).sum

/-- The counter bounds every aggregate maintains: a record increments
`pending` or `approved` at most once, and `conflicts` at most once, per
`total` increment. -/
def statsBounded (s : DStats) : Prop :=
  s.pending + s.approved ≤ s.total ∧ s.conflicts ≤ s.total

/-- The three-record example input from the specification: (district A,
Pending, no flags), (district A, Approved, overlap=true), (district B,
Conflict, no flags). -/
def exFeatures : List ClaimProps :=
  [ ⟨some "A", some "Pending", none, none⟩,
    ⟨some "A", some "Approved", some true, none⟩,
    ⟨some "B", some "Conflict", none, none⟩ ]

/-- A Pending record carrying the overlap flag, used as a witness input. -/
def exRecord : ClaimProps := ⟨some "A", some "Pending", some true, none⟩

/-- A record missing only its district key (status Approved, overlap set),
used as a witness input. -/
def exRecordNoDistrict : ClaimProps := ⟨none, some "Approved", some true, none⟩

/-- A record missing only its status key (district D, overlap set), used as
a witness input. -/
def exRecordNoStatus : ClaimProps := ⟨some "D", none, some true, none⟩

/-- The all-zero accumulator state the analytics loop starts from. -/
def exState : TallyState := ⟨0, 0, 0, []⟩

/-! ### Association-list lemmas -/

theorem lookupEntry_append_right (l : List (String × DStats)) (d : String) (v : DStats)
    (h : lookupEntry l d = none) : lookupEntry (l ++ [(d, v)]) d = some v := by
  induction l with
  | nil => simp [lookupEntry]
  | cons e rest ih =>
    obtain ⟨k, w⟩ := e
    by_cases hk : k = d
    · simp [lookupEntry, hk] at h
    · simp only [lookupEntry, hk, if_false, List.cons_append] at h ⊢
      exact ih h

theorem lookupEntry_updateEntry (l : List (String × DStats)) (k : String)
    (f : DStats → DStats) : lookupEntry (updateEntry l k f) k = (lookupEntry l k).map f := by
  induction l with
  | nil => simp [lookupEntry, updateEntry]
  | cons e rest ih =>
    obtain ⟨k', w⟩ := e
    by_cases hk : k' = k
    · simp [lookupEntry, updateEntry, hk]
    · simp [lookupEntry, updateEntry, hk, ih]

theorem updateEntry_updateEntry (l : List (String × DStats)) (k : String)
    (f g : DStats → DStats) :
    updateEntry (updateEntry l k f) k g = updateEntry l k (fun v => g (f v)) := by
  induction l with
  | nil => simp [updateEntry]
  | cons e rest ih =>
    obtain ⟨k', w⟩ := e
    by_cases hk : k' = k
    · simp [updateEntry, hk]
    · simp [updateEntry, hk, ih]

theorem updateEntry_id (l : List (String × DStats)) (k : String) :
    updateEntry l k (fun v => v) = l := by
  induction l with
  | nil => simp [updateEntry]
  | cons e rest ih =>
    obtain ⟨k', w⟩ := e
    by_cases hk : k' = k
    · simp [updateEntry, hk]
    · simp [updateEntry, hk, ih]

theorem updateEntry_congr (l : List (String × DStats)) (k : String)
    (f g : DStats → DStats) (h : ∀ v, f v = g v) :
    updateEntry l k f = updateEntry l k g := by
  induction l with
  | nil => simp [updateEntry]
  | cons e rest ih =>
    obtain ⟨k', w⟩ := e
    by_cases hk : k' = k
    · simp [updateEntry, hk, h]
    · simp [updateEntry, hk, ih]

theorem mem_updateEntry {l : List (String × DStats)} {k : String}
    {f : DStats → DStats} {e : String × DStats} (he : e ∈ updateEntry l k f) :
    e ∈ l ∨ ∃ v, (k, v) ∈ l ∧ e = (k, f v) := by
  induction l with
  | nil => simp [updateEntry] at he
  | cons hd rest ih =>
    obtain ⟨k', w⟩ := hd
    by_cases hk : k' = k
    · subst hk
      simp only [updateEntry, if_pos rfl] at he
      rcases List.mem_cons.1 he with h | h
      · exact Or.inr ⟨w, List.mem_cons_self _ _, h⟩
      · exact Or.inl (List.mem_cons_of_mem _ h)
    · simp only [updateEntry, if_neg hk] at he
      rcases List.mem_cons.1 he with h | h
      · exact Or.inl (h ▸ List.mem_cons_self _ _)
      · rcases ih h with h' | ⟨v, hv, hev⟩
        · exact Or.inl (List.mem_cons_of_mem _ h')
        · exact Or.inr ⟨v, List.mem_cons_of_mem _ hv, hev⟩

theorem sumTotals_append (l₁ l₂ : List (String × DStats)) :
    sumTotals (l₁ ++ l₂) = sumTotals l₁ + sumTotals l₂ := by
  simp [sumTotals]

theorem sumTotals_cons (e : String × DStats) (l : List (String × DStats)) :
    sumTotals (e :: l) = e.2.total + sumTotals l := by
  simp [sumTotals]

theorem sumTotals_filter_total_ne_zero (l : List (String × DStats)) :
    sumTotals (l.filter (fun p => p.2.total ≠ 0)) = sumTotals l := by
  induction l with
  | nil => rfl
  | cons e rest ih =>
    rw [sumTotals_cons]
    simp only [ne_eq, decide_not] at ih ⊢
    by_cases h : e.2.total = 0
    · simp only [List.filter_cons]
      simp [h, ih]
    · simp only [List.filter_cons]
      simp [h, sumTotals_cons, ih]

/-! ### One-step characterisation of the loop body -/

theorem processFeature_districts_data (st : TallyState) (p : ClaimProps) :
    (processFeature st p).districts_data =
      updateEntry
        (if (lookupEntry st.districts_data (p.district.getD "Unknown")).isSome
          then st.districts_data
          else st.districts_data ++ [(p.district.getD "Unknown", initDistrict)])
        (p.district.getD "Unknown") (fun old => stepStats old p) := by
  by_cases hP : p.status.getD "Unknown" = "Pending" <;>
    by_cases hA : p.status.getD "Unknown" = "Approved" <;>
      by_cases hC : p.status.getD "Unknown" = "Conflict" <;>
        by_cases hOv : p.overlap.getD false = true <;>
          by_cases hPz : p.protected_zone.getD false = true <;>
            simp [processFeature, stepStats, hP, hA, hC, hOv, hPz,
              updateEntry_updateEntry, apply_ite TallyState.districts_data]

theorem processFeature_approved_claims (st : TallyState) (p : ClaimProps) :
    (processFeature st p).approved_claims =
      st.approved_claims + (if p.status.getD "Unknown" = "Approved" then 1 else 0) := by
  by_cases hP : p.status.getD "Unknown" = "Pending" <;>
    by_cases hA : p.status.getD "Unknown" = "Approved" <;>
      simp [processFeature, hP, hA, apply_ite TallyState.approved_claims]

theorem processFeature_pending_claims (st : TallyState) (p : ClaimProps) :
    (processFeature st p).pending_claims =
      st.pending_claims + (if p.status.getD "Unknown" = "Pending" then 1 else 0) := by
  by_cases hP : p.status.getD "Unknown" = "Pending" <;>
    by_cases hA : p.status.getD "Unknown" = "Approved" <;>
      simp [processFeature, hP, hA, apply_ite TallyState.pending_claims]

theorem processFeature_conflict_claims (st : TallyState) (p : ClaimProps) :
    (processFeature st p).conflict_claims =
      st.conflict_claims +
        (if p.status.getD "Unknown" ≠ "Approved" ∧ p.status.getD "Unknown" ≠ "Pending" ∧
            (p.status.getD "Unknown" = "Conflict" ∨ p.overlap.getD false = true ∨
              p.protected_zone.getD false = true) then 1 else 0) := by
  by_cases hP : p.status.getD "Unknown" = "Pending" <;>
    by_cases hA : p.status.getD "Unknown" = "Approved" <;>
      by_cases hC : p.status.getD "Unknown" = "Conflict" <;>
        by_cases hOv : p.overlap.getD false = true <;>
          by_cases hPz : p.protected_zone.getD false = true <;>
            simp [processFeature, hP, hA, hC, hOv, hPz, apply_ite TallyState.conflict_claims]

theorem lookupEntry_processFeature (st : TallyState) (p : ClaimProps) :
    lookupEntry (processFeature st p).districts_data (p.district.getD "Unknown") =
      some (stepStats
        ((lookupEntry st.districts_data (p.district.getD "Unknown")).getD initDistrict) p) := by
  rw [processFeature_districts_data, lookupEntry_updateEntry]
  by_cases h : (lookupEntry st.districts_data (p.district.getD "Unknown")).isSome
  · rw [if_pos h]
    obtain ⟨v, hv⟩ := Option.isSome_iff_exists.1 h
    rw [hv]
    rfl
  · rw [if_neg h]
    have hnone : lookupEntry st.districts_data (p.district.getD "Unknown") = none :=
      Option.not_isSome_iff_eq_none.1 h
    rw [lookupEntry_append_right _ _ _ hnone, hnone]
    rfl

theorem statsBounded_initDistrict : statsBounded initDistrict := by
  constructor <;> simp [initDistrict]

theorem statsBounded_stepStats {s : DStats} (p : ClaimProps) (h : statsBounded s) :
    statsBounded (stepStats s p) := by
  obtain ⟨h1, h2⟩ := h
  by_cases hP : p.status.getD "Unknown" = "Pending" <;>
    by_cases hA : p.status.getD "Unknown" = "Approved" <;>
      constructor <;>
        simp [stepStats, hP, hA] <;>
          first
            | omega
            | (split_ifs <;> omega)

theorem statsBounded_processFeature {st : TallyState} {p : ClaimProps}
    (h : ∀ e ∈ st.districts_data, statsBounded e.2) :
    ∀ e ∈ (processFeature st p).districts_data, statsBounded e.2 := by
  intro e he
  rw [processFeature_districts_data] at he
  have hdd0 : ∀ e' ∈ (if (lookupEntry st.districts_data (p.district.getD "Unknown")).isSome
      then st.districts_data
      else st.districts_data ++ [(p.district.getD "Unknown", initDistrict)]),
      statsBounded e'.2 := by
    intro e' he'
    split at he'
    · exact h e' he'
    · rcases List.mem_append.1 he' with h' | h'
      · exact h e' h'
      · have : e' = (p.district.getD "Unknown", initDistrict) := by simpa using h'
        rw [this]
        exact statsBounded_initDistrict
  rcases mem_updateEntry he with h' | ⟨v, hv, hev⟩
  · exact hdd0 _ h'
  · rw [hev]
    exact statsBounded_stepStats p (hdd0 _ hv)

theorem sumTotals_updateEntry_succ (l : List (String × DStats)) (k : String)
    (f : DStats → DStats) (hf : ∀ v, (f v).total = v.total + 1)
    (hk : (lookupEntry l k).isSome) :
    sumTotals (updateEntry l k f) = sumTotals l + 1 := by
  induction l with
  | nil => simp [lookupEntry] at hk
  | cons e rest ih =>
    obtain ⟨k', w⟩ := e
    by_cases h : k' = k
    · simp [updateEntry, sumTotals, h, hf]
      omega
    · simp only [lookupEntry, h, if_false] at hk
      simp only [updateEntry, h, if_false]
      simp only [sumTotals, List.map_cons, List.sum_cons] at ih ⊢
      rw [ih hk]
      omega

/-! ### Loop (fold) invariants -/

theorem sumTotals_processFeature (st : TallyState) (p : ClaimProps) :
    sumTotals (processFeature st p).districts_data = sumTotals st.districts_data + 1 := by
  rw [processFeature_districts_data]
  by_cases hc : (lookupEntry st.districts_data (p.district.getD "Unknown")).isSome
  · rw [if_pos hc, sumTotals_updateEntry_succ _ _ _ (fun v => rfl) hc]
  · rw [if_neg hc]
    have hnone : lookupEntry st.districts_data (p.district.getD "Unknown") = none :=
      Option.not_isSome_iff_eq_none.1 hc
    have hsome : (lookupEntry
        (st.districts_data ++ [(p.district.getD "Unknown", initDistrict)])
        (p.district.getD "Unknown")).isSome := by
      rw [lookupEntry_append_right _ _ _ hnone]
      rfl
    rw [sumTotals_updateEntry_succ _ _ _ (fun v => rfl) hsome, sumTotals_append]
    simp [sumTotals, initDistrict]

theorem fold_sumTotals (fs : List ClaimProps) : ∀ st : TallyState,
    sumTotals (fs.foldl processFeature st).districts_data =
      sumTotals st.districts_data + fs.length := by
  induction fs with
  | nil => intro st; simp
  | cons p rest ih =>
    intro st
    simp only [List.foldl_cons, List.length_cons]
    rw [ih, sumTotals_processFeature]
    omega

theorem fold_statsBounded (fs : List ClaimProps) : ∀ st : TallyState,
    (∀ e ∈ st.districts_data, statsBounded e.2) →
    ∀ e ∈ (fs.foldl processFeature st).districts_data, statsBounded e.2 := by
  induction fs with
  | nil => intro st h; simpa using h
  | cons p rest ih =>
    intro st h
    exact ih _ (statsBounded_processFeature h)

theorem fold_approved_pending_le (fs : List ClaimProps) : ∀ st : TallyState,
    (fs.foldl processFeature st).approved_claims +
        (fs.foldl processFeature st).pending_claims ≤
      st.approved_claims + st.pending_claims + fs.length := by
  induction fs with
  | nil => intro st; simp
  | cons p rest ih =>
    intro st
    simp only [List.foldl_cons, List.length_cons]
    have h := ih (processFeature st p)
    have ha := processFeature_approved_claims st p
    have hp := processFeature_pending_claims st p
    by_cases hA : p.status.getD "Unknown" = "Approved"
    · simp [hA] at ha hp
      omega
    · simp [hA] at ha
      split_ifs at hp <;> omega

/-! ### Projections of `get_analytics` -/

theorem get_analytics_summary_total_claims (fs : List ClaimProps) :
    (get_analytics fs).summary.total_claims = fs.length := rfl

theorem get_analytics_summary_approved_claims (fs : List ClaimProps) :
    (get_analytics fs).summary.approved_claims =
      (fs.foldl processFeature ⟨0, 0, 0, []⟩).approved_claims := rfl

theorem get_analytics_summary_pending_claims (fs : List ClaimProps) :
    (get_analytics fs).summary.pending_claims =
      (fs.foldl processFeature ⟨0, 0, 0, []⟩).pending_claims := rfl

/-! ### Rounding and scoring lemmas -/

theorem roundHalfEven_intCast (n : ℤ) : roundHalfEven ((n : ℚ)) = n := by
  rw [roundHalfEven, Int.fract_intCast, if_neg (by norm_num), round_intCast]

theorem roundHalfEven_nonneg {q : ℚ} (h : 0 ≤ q) : 0 ≤ roundHalfEven q := by
  rw [roundHalfEven]
  split
  · have h2 : (0 : ℤ) ≤ round (q / 2) := by
      rw [round_eq]
      exact Int.le_floor.2 (by push_cast; linarith)
    omega
  · rw [round_eq]
    exact Int.le_floor.2 (by push_cast; linarith)

theorem roundHalfEven_le {q : ℚ} {n : ℤ} (h : q ≤ 2 * n) : roundHalfEven q ≤ 2 * n := by
  rw [roundHalfEven]
  split
  · have h2 : round (q / 2) ≤ n := by
      rw [round_eq]
      have hm : ⌊q / 2 + 1 / 2⌋ ≤ ⌊(n : ℚ) + 1 / 2⌋ := Int.floor_mono (by push_cast; linarith)
      have h3 : ⌊(n : ℚ) + 1 / 2⌋ = n := by
        rw [Int.floor_int_add]
        norm_num
      omega
    omega
  · rw [round_eq]
    have hm : ⌊q + 1 / 2⌋ ≤ ⌊((2 * n : ℤ) : ℚ) + 1 / 2⌋ := Int.floor_mono (by push_cast; linarith)
    have h3 : ⌊((2 * n : ℤ) : ℚ) + 1 / 2⌋ = 2 * n := by
      rw [Int.floor_int_add]
      norm_num
    omega

theorem round2_nonneg {q : ℚ} (h : 0 ≤ q) : 0 ≤ round2 q := by
  rw [round2]
  apply div_nonneg _ (by norm_num)
  exact_mod_cast roundHalfEven_nonneg (by positivity)

theorem round2_le_100 {q : ℚ} (h : q ≤ 100) : round2 q ≤ 100 := by
  rw [round2, div_le_iff₀ (by norm_num : (0 : ℚ) < 100)]
  have h1 : roundHalfEven (q * 100) ≤ 2 * 5000 := roundHalfEven_le (by push_cast; linarith)
  calc ((roundHalfEven (q * 100) : ℤ) : ℚ) ≤ ((10000 : ℤ) : ℚ) := by exact_mod_cast h1
    _ = 100 * 100 := by norm_num

theorem round2_mul_100_den (q : ℚ) : (round2 q * 100).den = 1 := by
  rw [round2, div_mul_cancel₀ _ (by norm_num : (100 : ℚ) ≠ 0)]
  exact Rat.den_intCast _

theorem riskScore_nonneg (s : DStats) : 0 ≤ riskScore s := by
  rw [riskScore]
  positivity

theorem riskScore_le_100 {s : DStats} (hb : statsBounded s) : riskScore s ≤ 100 := by
  obtain ⟨h1, h2⟩ := hb
  simp only [riskScore]
  rcases Nat.eq_zero_or_pos s.total with h0 | h0
  · have hp : s.pending = 0 := by omega
    have hc : s.conflicts = 0 := by omega
    norm_num [h0, hp, hc]
  · have ht : (0 : ℚ) < (s.total : ℚ) := by exact_mod_cast h0
    have hp : (s.pending : ℚ) / (s.total : ℚ) ≤ 1 := by
      rw [div_le_one ht]
      exact_mod_cast (by omega : s.pending ≤ s.total)
    have hc : (s.conflicts : ℚ) / (s.total : ℚ) ≤ 1 := by
      rw [div_le_one ht]
      exact_mod_cast h2
    linarith

theorem riskLevel_eq_low {q : ℚ} : riskLevel q = "Low" ↔ q ≤ 40 := by
  rw [riskLevel]
  split_ifs with h1 h2 <;> simp_all

theorem riskLevel_eq_moderate {q : ℚ} : riskLevel q = "Moderate" ↔ 40 < q ∧ q ≤ 70 := by
  rw [riskLevel]
  split_ifs with h1 h2 <;> simp_all <;> linarith

theorem riskLevel_eq_high {q : ℚ} : riskLevel q = "High" ↔ 70 < q := by
  rw [riskLevel]
  split_ifs with h1 h2 <;> simp_all <;> linarith

theorem get_analytics_districts_def (fs : List ClaimProps) :
    (get_analytics fs).districts =
      List.insertionSort rankingLe
        (((fs.foldl processFeature ⟨0, 0, 0, []⟩).districts_data.filter
          (fun p => p.2.total ≠ 0)).map (fun p => mkRanking p.1 p.2)) := rfl

theorem mem_districts {fs : List ClaimProps} {r : DistrictRanking}
    (hr : r ∈ (get_analytics fs).districts) :
    ∃ e ∈ (fs.foldl processFeature ⟨0, 0, 0, []⟩).districts_data,
      e.2.total ≠ 0 ∧ r = mkRanking e.1 e.2 := by
  rw [get_analytics_districts_def] at hr
  have hr2 := (List.perm_insertionSort rankingLe _).subset hr
  obtain ⟨e, he, heq⟩ := List.mem_map.1 hr2
  have hef := List.mem_filter.1 he
  refine ⟨e, hef.1, ?_, heq.symm⟩
  simpa using hef.2

/-! ### Claim theorems -/

/-- C6: for every input, the returned districts list is sorted
non-increasing by `risk_score` (each element's risk_score is at least that
of the next element). -/
theorem districts_sorted_by_risk_desc (fs : List ClaimProps) :
    List.Pairwise (fun a b => b.risk_score ≤ a.risk_score) (get_analytics fs).districts := by
  rw [get_analytics_districts_def]
  exact List.sorted_insertionSort rankingLe _

/-- C4: for every input, the sum over the output district list of each
district's total equals the summary's `total_claims`: every record is
attributed to exactly one district and no district entry is dropped. -/
theorem sum_district_totals_eq_total_claims (fs : List ClaimProps) :
    ((get_analytics fs).districts.map (fun r => r.total_claims)).sum =
      (get_analytics fs).summary.total_claims := by
  rw [get_analytics_summary_total_claims, get_analytics_districts_def]
  rw [List.Perm.sum_eq ((List.perm_insertionSort rankingLe _).map (fun r => r.total_claims))]
  rw [List.map_map]
  have hcomp : ((fun r => r.total_claims) ∘ (fun p : String × DStats => mkRanking p.1 p.2)) =
      fun p : String × DStats => p.2.total := rfl
  rw [hcomp]
  have hs : ((((fs.foldl processFeature ⟨0, 0, 0, []⟩).districts_data.filter
      (fun p => p.2.total ≠ 0)).map (fun p : String × DStats => p.2.total)).sum) =
      sumTotals ((fs.foldl processFeature ⟨0, 0, 0, []⟩).districts_data.filter
        (fun p => p.2.total ≠ 0)) := rfl
  rw [hs, sumTotals_filter_total_ne_zero, fold_sumTotals]
  simp [sumTotals]

/-- C5: after processing any input, every district aggregate satisfies
`pending + approved ≤ total`, and the global summary satisfies
`approved_claims + pending_claims ≤ total_claims`. -/
theorem aggregate_invariants (fs : List ClaimProps) :
    (∀ e ∈ (fs.foldl processFeature ⟨0, 0, 0, []⟩).districts_data,
        e.2.pending + e.2.approved ≤ e.2.total) ∧
    (get_analytics fs).summary.approved_claims + (get_analytics fs).summary.pending_claims ≤
      (get_analytics fs).summary.total_claims := by
  constructor
  · intro e he
    exact (fold_statsBounded fs ⟨0, 0, 0, []⟩ (by simp) e he).1
  · rw [get_analytics_summary_total_claims, get_analytics_summary_approved_claims,
      get_analytics_summary_pending_claims]
    simpa using fold_approved_pending_le fs ⟨0, 0, 0, []⟩

/-- Witness for C5 at the three-record example: district A's aggregate
(2 total, 1 pending, 1 conflict, 1 approved) satisfies the bound, and so
does the example's summary. -/
theorem aggregate_invariants_witness :
    (("A", (⟨2, 1, 1, 1⟩ : DStats)) ∈
        (exFeatures.foldl processFeature ⟨0, 0, 0, []⟩).districts_data ∧
      (⟨2, 1, 1, 1⟩ : DStats).pending + (⟨2, 1, 1, 1⟩ : DStats).approved ≤
        (⟨2, 1, 1, 1⟩ : DStats).total) ∧
    (get_analytics exFeatures).summary.approved_claims +
        (get_analytics exFeatures).summary.pending_claims ≤
      (get_analytics exFeatures).summary.total_claims := by
  have h := aggregate_invariants exFeatures
  exact ⟨⟨by decide, h.1 ("A", ⟨2, 1, 1, 1⟩) (by decide)⟩, h.2⟩

/-- C2: a record whose status is Approved or Pending and which also
carries `overlap=true` or `protected_zone=true` does not increment the
global `conflict_claims` (the Conflict branch is an else-if), while its
district's `conflicts` counter increments in addition to the district's
approved-or-pending counter (an independent if). -/
theorem approved_pending_flagged_tally (st : TallyState) (p : ClaimProps)
    (hs : p.status.getD "Unknown" = "Approved" ∨ p.status.getD "Unknown" = "Pending")
    (hf : p.overlap.getD false = true ∨ p.protected_zone.getD false = true) :
    (processFeature st p).conflict_claims = st.conflict_claims ∧
    (processFeature st p).approved_claims + (processFeature st p).pending_claims =
      st.approved_claims + st.pending_claims + 1 ∧
    lookupEntry (processFeature st p).districts_data (p.district.getD "Unknown") =
      some (stepStats
        ((lookupEntry st.districts_data (p.district.getD "Unknown")).getD initDistrict) p) ∧
    (∀ old : DStats,
      (stepStats old p).conflicts = old.conflicts + 1 ∧
      (stepStats old p).pending + (stepStats old p).approved =
        old.pending + old.approved + 1) := by
  refine ⟨?_, ?_, lookupEntry_processFeature st p, ?_⟩
  · rw [processFeature_conflict_claims]
    rcases hs with h | h <;> simp [h]
  · rw [processFeature_approved_claims, processFeature_pending_claims]
    rcases hs with h | h <;> simp [h] <;> omega
  · intro old
    constructor
    · rcases hf with h | h <;> simp [stepStats, h]
    · rcases hs with h | h <;> simp [stepStats, h] <;> omega

/-- Witness for C2: the Pending-with-overlap record processed from the
empty state. -/
theorem approved_pending_flagged_tally_witness :
    (exRecord.status.getD "Unknown" = "Approved" ∨ exRecord.status.getD "Unknown" = "Pending") ∧
    (exRecord.overlap.getD false = true ∨ exRecord.protected_zone.getD false = true) ∧
    (processFeature exState exRecord).conflict_claims = exState.conflict_claims ∧
    (processFeature exState exRecord).approved_claims +
        (processFeature exState exRecord).pending_claims =
      exState.approved_claims + exState.pending_claims + 1 ∧
    lookupEntry (processFeature exState exRecord).districts_data
        (exRecord.district.getD "Unknown") =
      some (stepStats
        ((lookupEntry exState.districts_data (exRecord.district.getD "Unknown")).getD
          initDistrict) exRecord) ∧
    (stepStats (⟨7, 2, 3, 1⟩ : DStats) exRecord).conflicts = 3 + 1 ∧
    (stepStats (⟨7, 2, 3, 1⟩ : DStats) exRecord).pending +
        (stepStats (⟨7, 2, 3, 1⟩ : DStats) exRecord).approved = 2 + 1 + 1 := by
  have h := approved_pending_flagged_tally exState exRecord (by decide) (by decide)
  exact ⟨by decide, by decide, h.1, h.2.1, h.2.2.1,
    (h.2.2.2 ⟨7, 2, 3, 1⟩).1, (h.2.2.2 ⟨7, 2, 3, 1⟩).2⟩

/-- C8: two independent defaulting rules, so that missing fields never
make the computation fail: any record with no `district` key is attributed
to district "Unknown" (whatever its status), and any record with a missing
`status` increments `total` but none of the approved/pending status
counters, globally or per district (whatever its district); its conflict
counters can still increment via the flags. -/
theorem missing_fields_use_defaults (st : TallyState) (p : ClaimProps) :
    (p.district = none →
      lookupEntry (processFeature st p).districts_data "Unknown" =
        some (stepStats ((lookupEntry st.districts_data "Unknown").getD initDistrict) p)) ∧
    (p.status = none →
      lookupEntry (processFeature st p).districts_data (p.district.getD "Unknown") =
        some { total := ((lookupEntry st.districts_data
                   (p.district.getD "Unknown")).getD initDistrict).total + 1
               pending := ((lookupEntry st.districts_data
                   (p.district.getD "Unknown")).getD initDistrict).pending
               conflicts := ((lookupEntry st.districts_data
                   (p.district.getD "Unknown")).getD initDistrict).conflicts +
                 (if p.overlap.getD false = true ∨ p.protected_zone.getD false = true
                   then 1 else 0)
               approved := ((lookupEntry st.districts_data
                   (p.district.getD "Unknown")).getD initDistrict).approved } ∧
      (processFeature st p).approved_claims = st.approved_claims ∧
      (processFeature st p).pending_claims = st.pending_claims ∧
      (processFeature st p).conflict_claims = st.conflict_claims +
        (if p.overlap.getD false = true ∨ p.protected_zone.getD false = true
          then 1 else 0)) := by
  constructor
  · intro hd
    have hd' : p.district.getD "Unknown" = "Unknown" := by rw [hd]; rfl
    have h := lookupEntry_processFeature st p
    rw [hd'] at h
    exact h
  · intro hs
    have hs' : p.status.getD "Unknown" = "Unknown" := by rw [hs]; rfl
    refine ⟨?_, ?_, ?_, ?_⟩
    · have h := lookupEntry_processFeature st p
      rw [h]
      by_cases hOv : p.overlap.getD false = true <;>
        by_cases hPz : p.protected_zone.getD false = true <;>
          simp [stepStats, hs', hOv, hPz]
    · rw [processFeature_approved_claims]
      simp [hs']
    · rw [processFeature_pending_claims]
      simp [hs']
    · rw [processFeature_conflict_claims]
      by_cases hOv : p.overlap.getD false = true <;>
        by_cases hPz : p.protected_zone.getD false = true <;>
          simp [hs', hOv, hPz]

/-- Witness for C8, one record per rule: a record missing only its district
key (status Approved) lands under "Unknown", and a record missing only its
status key (district "D", overlap flag set) moves only the totals and the
flag-driven conflict counters. -/
theorem missing_fields_use_defaults_witness :
    exRecordNoDistrict.district = none ∧ exRecordNoStatus.status = none ∧
    lookupEntry (processFeature exState exRecordNoDistrict).districts_data "Unknown" =
      some (stepStats ((lookupEntry exState.districts_data "Unknown").getD initDistrict)
        exRecordNoDistrict) ∧
    (lookupEntry (processFeature exState exRecordNoStatus).districts_data
        (exRecordNoStatus.district.getD "Unknown") =
      some { total := ((lookupEntry exState.districts_data
                 (exRecordNoStatus.district.getD "Unknown")).getD initDistrict).total + 1
             pending := ((lookupEntry exState.districts_data
                 (exRecordNoStatus.district.getD "Unknown")).getD initDistrict).pending
             conflicts := ((lookupEntry exState.districts_data
                 (exRecordNoStatus.district.getD "Unknown")).getD initDistrict).conflicts +
               (if exRecordNoStatus.overlap.getD false = true ∨
                   exRecordNoStatus.protected_zone.getD false = true then 1 else 0)
             approved := ((lookupEntry exState.districts_data
                 (exRecordNoStatus.district.getD "Unknown")).getD initDistrict).approved } ∧
      (processFeature exState exRecordNoStatus).approved_claims = exState.approved_claims ∧
      (processFeature exState exRecordNoStatus).pending_claims = exState.pending_claims ∧
      (processFeature exState exRecordNoStatus).conflict_claims = exState.conflict_claims +
        (if exRecordNoStatus.overlap.getD false = true ∨
            exRecordNoStatus.protected_zone.getD false = true then 1 else 0)) := by
  refine ⟨by decide, by decide, ?_, ?_⟩
  · exact (missing_fields_use_defaults exState exRecordNoDistrict).1 (by decide)
  · exact (missing_fields_use_defaults exState exRecordNoStatus).2 (by decide)

/-- C9: when the credential is configured and the store is readable,
a requested district name with no exactly matching entry in the computed
ranking yields the structured not-found error, and a report is produced
only when some ranking entry's district equals the requested name. -/
theorem report_district_not_found (key : Option String) (fs : List ClaimProps)
    (district : String) (gen : String → Except String String)
    (hk : gemini_key_missing key = false) :
    ((get_analytics fs).districts.find? (fun d => d.district == district) = none →
      generate_report key (.ok fs) district gen = ReportResult.notFound district) ∧
    (∀ d text, generate_report key (.ok fs) district gen = ReportResult.report d text →
      ∃ r ∈ (get_analytics fs).districts, r.district = district) := by
  constructor
  · intro hfind
    simp [generate_report, hk, hfind]
  · intro d text hrep
    simp only [generate_report, hk, Bool.false_eq_true, if_false] at hrep
    cases hfind : (get_analytics fs).districts.find? (fun r => r.district == district) with
    | none =>
      rw [hfind] at hrep
      exact absurd hrep (by simp)
    | some t =>
      have ht := List.find?_some hfind
      have hmem := List.mem_of_find?_eq_some hfind
      exact ⟨t, hmem, by simpa using ht⟩

/-- Witness for C9: an empty store has an empty ranking, so district
"X" is reported as not found. -/
theorem report_district_not_found_witness :
    gemini_key_missing (some "k") = false ∧
    generate_report (some "k") (.ok []) "X" (fun _ => .error "e") =
      ReportResult.notFound "X" := by
  refine ⟨by decide, ?_⟩
  exact (report_district_not_found (some "k") [] "X" (fun _ => .error "e") (by decide)).1
    (by decide)

/-- C10: if the credential is unset or equals the placeholder, the
report endpoint returns the configuration error for every store content,
district name and generation outcome — so the credential check precedes
the store read, the analytics computation and the district lookup. -/
theorem report_config_error_precedence (key : Option String)
    (hk : key = none ∨ key = some "your_gemini_api_key_here") :
    ∀ (store : Except String (List ClaimProps)) (district : String)
      (gen : String → Except String String),
      generate_report key store district gen = ReportResult.configError := by
  intro store district gen
  rcases hk with h | h <;> subst h <;> simp [generate_report, gemini_key_missing]

/-- Witness for C10: an unset key yields the configuration error both
on an unreadable store and on a store containing district "A". -/
theorem report_config_error_precedence_witness :
    ((none : Option String) = none ∨
      (none : Option String) = some "your_gemini_api_key_here") ∧
    generate_report none (.error "store unreadable") "AnyDistrict" (fun _ => .ok "text") =
      ReportResult.configError ∧
    generate_report none (.ok exFeatures) "A" (fun _ => .ok "text") =
      ReportResult.configError := by
  exact ⟨Or.inl rfl,
    report_config_error_precedence none (Or.inl rfl) _ _ _,
    report_config_error_precedence none (Or.inl rfl) _ _ _⟩

/-- C3: every output district entry has positive total; its unrounded
score equals `(pending/total*100)*0.5 + (conflicts/total*100)*0.5`; the
output `risk_score` is that score rounded to exactly 2 decimal places and
lies in [0, 100] (as does the unrounded score); and the risk level is Low
iff score ≤ 40, Moderate iff 40 < score ≤ 70, High iff score > 70. -/
theorem district_risk_score_spec {fs : List ClaimProps} {r : DistrictRanking}
    (hr : r ∈ (get_analytics fs).districts) :
    0 < r.total_claims ∧
    ∃ score : ℚ,
      score = ((r.pending : ℚ) / (r.total_claims : ℚ) * 100) * (1 / 2) +
              ((r.conflicts : ℚ) / (r.total_claims : ℚ) * 100) * (1 / 2) ∧
      r.risk_score = round2 score ∧
      0 ≤ score ∧ score ≤ 100 ∧
      0 ≤ r.risk_score ∧ r.risk_score ≤ 100 ∧
      (r.risk_score * 100).den = 1 ∧
      (r.risk_level = "Low" ↔ score ≤ 40) ∧
      (r.risk_level = "Moderate" ↔ 40 < score ∧ score ≤ 70) ∧
      (r.risk_level = "High" ↔ 70 < score) := by
  obtain ⟨e, he, hne, rfl⟩ := mem_districts hr
  have hb := fold_statsBounded fs ⟨0, 0, 0, []⟩ (by simp) e he
  have h0 : 0 < e.2.total := Nat.pos_of_ne_zero hne
  refine ⟨h0, riskScore e.2, ?_, rfl,
    riskScore_nonneg e.2, riskScore_le_100 hb,
    round2_nonneg (riskScore_nonneg e.2), round2_le_100 (riskScore_le_100 hb),
    round2_mul_100_den _,
    riskLevel_eq_low, riskLevel_eq_moderate, riskLevel_eq_high⟩
  rfl



/-- Evaluation of the tally loop on the three-record example. -/
theorem exFeatures_fold :
    exFeatures.foldl processFeature ⟨0, 0, 0, []⟩ =
      ⟨1, 1, 1, [("A", ⟨2, 1, 1, 1⟩), ("B", ⟨1, 0, 1, 0⟩)]⟩ := by decide

theorem riskScore_exA : riskScore ⟨2, 1, 1, 1⟩ = 50 := by norm_num [riskScore]

theorem riskScore_exB : riskScore ⟨1, 0, 1, 0⟩ = 50 := by norm_num [riskScore]

theorem round2_50 : round2 (50 : ℚ) = 50 := by
  rw [round2, show ((50 : ℚ) * 100) = ((5000 : ℤ) : ℚ) by norm_num, roundHalfEven_intCast]
  norm_num

theorem riskLevel_50 : riskLevel (50 : ℚ) = "Moderate" := by
  rw [riskLevel, if_neg (by norm_num), if_pos (by norm_num)]

/-- The ranking computed from the three-record example: district A scores
50.0 (Moderate) — not 25.0 (Low) — and district B scores 50.0 (Moderate). -/
theorem exFeatures_districts :
    (get_analytics exFeatures).districts =
      [⟨"A", 2, 1, 1, 50, "Moderate"⟩, ⟨"B", 1, 0, 1, 50, "Moderate"⟩] := by
  rw [get_analytics_districts_def, exFeatures_fold]
  norm_num [mkRanking, riskScore_exA, riskScore_exB, round2_50, riskLevel_50,
    List.insertionSort, List.orderedInsert, rankingLe]



/-- C1 counterexample: in the three-record example no ranking entry
for district A has `risk_score = 25.0` with level Low; the A entry the
code produces scores 50.0 Moderate (pending_pct = conflict_pct = 50, so
50·0.5 + 50·0.5 = 50). -/
theorem example_district_A_not_low :
    ¬ ∃ r ∈ (get_analytics exFeatures).districts,
        r.district = "A" ∧ r.risk_score = 25 ∧ r.risk_level = "Low" := by
  rw [exFeatures_districts]
  rintro ⟨r, hr, hA, hs, hl⟩
  rcases List.mem_cons.1 hr with h | h
  · subst h
    norm_num at hs
  · rcases List.mem_cons.1 h with h' | h'
    · subst h'
      simp at hA
    · simp at h'

/-- C1 amended: the three-record example yields district A with
total=2, pending=1, approved=1, conflicts=1, risk_score=50.0 (Moderate);
district B with total=1, pending=0, approved=0, conflicts=1,
risk_score=50.0 (Moderate); and the summary total=3, approved=1,
pending=1, conflicts=1. -/
theorem example_analytics_values :
    (get_analytics exFeatures).districts =
      [⟨"A", 2, 1, 1, 50, "Moderate"⟩, ⟨"B", 1, 0, 1, 50, "Moderate"⟩] ∧
    (exFeatures.foldl processFeature ⟨0, 0, 0, []⟩).districts_data =
      [("A", ⟨2, 1, 1, 1⟩), ("B", ⟨1, 0, 1, 0⟩)] ∧
    (get_analytics exFeatures).summary.total_claims = 3 ∧
    (get_analytics exFeatures).summary.approved_claims = 1 ∧
    (get_analytics exFeatures).summary.pending_claims = 1 ∧
    (get_analytics exFeatures).summary.conflict_claims = 1 := by
  exact ⟨exFeatures_districts, by decide, by decide, by decide, by decide, by decide⟩

/-- **C7**: the empty input yields `total_claims = 0`, both percentages 0
(the guarded else-branch, so no division by zero is evaluated), and an
empty districts list. -/
theorem empty_input_analytics :
    get_analytics [] = ⟨⟨0, 0, 0, 0, 0, 0⟩, []⟩ := by
  have h0 : round1 0 = 0 := by
    rw [round1, show ((0 : ℚ) * 10) = ((0 : ℤ) : ℚ) by norm_num, roundHalfEven_intCast]
    norm_num
  simp [get_analytics, h0, List.insertionSort]

/-- Witness for C3 at the example's district-B entry. -/
theorem district_risk_score_spec_witness :
    ((⟨"B", 1, 0, 1, 50, "Moderate"⟩ : DistrictRanking) ∈ (get_analytics exFeatures).districts) ∧
    (0 < (⟨"B", 1, 0, 1, 50, "Moderate"⟩ : DistrictRanking).total_claims ∧
    ∃ score : ℚ,
      score = (((⟨"B", 1, 0, 1, 50, "Moderate"⟩ : DistrictRanking).pending : ℚ) /
              ((⟨"B", 1, 0, 1, 50, "Moderate"⟩ : DistrictRanking).total_claims : ℚ) * 100) * (1 / 2) +
            (((⟨"B", 1, 0, 1, 50, "Moderate"⟩ : DistrictRanking).conflicts : ℚ) /
              ((⟨"B", 1, 0, 1, 50, "Moderate"⟩ : DistrictRanking).total_claims : ℚ) * 100) * (1 / 2) ∧
      (⟨"B", 1, 0, 1, 50, "Moderate"⟩ : DistrictRanking).risk_score = round2 score ∧
      0 ≤ score ∧ score ≤ 100 ∧
      0 ≤ (⟨"B", 1, 0, 1, 50, "Moderate"⟩ : DistrictRanking).risk_score ∧
      (⟨"B", 1, 0, 1, 50, "Moderate"⟩ : DistrictRanking).risk_score ≤ 100 ∧
      ((⟨"B", 1, 0, 1, 50, "Moderate"⟩ : DistrictRanking).risk_score * 100).den = 1 ∧
      ((⟨"B", 1, 0, 1, 50, "Moderate"⟩ : DistrictRanking).risk_level = "Low" ↔ score ≤ 40) ∧
      ((⟨"B", 1, 0, 1, 50, "Moderate"⟩ : DistrictRanking).risk_level = "Moderate" ↔
        40 < score ∧ score ≤ 70) ∧
      ((⟨"B", 1, 0, 1, 50, "Moderate"⟩ : DistrictRanking).risk_level = "High" ↔ 70 < score)) := by
  have hmem : (⟨"B", 1, 0, 1, 50, "Moderate"⟩ : DistrictRanking) ∈
      (get_analytics exFeatures).districts := by
    rw [exFeatures_districts]
    simp
  exact ⟨hmem, district_risk_score_spec hmem⟩

end FraAtlas
